import Mathlib

/-!
Verification of the SimpleScreenRecorder remote-control HTTP service
(`src/common/HTTPServer.cpp` / `HTTPServer.h`).

The development shallowly embeds the server's pure request-handling logic:

* `PageRecord` models the recorder controller contract (§6 of the design
  document): five synchronous queries.  Commands issued to the controller
  are recorded as an explicit `List Command` returned alongside each
  response, since the C++ handlers' only side effects on the controller
  are these calls.
* JSON values (`QJsonObject` / `QJsonValue`) are modelled by the inductive
  `Json`; objects are member chains in insertion order.  (Qt stores
  `QJsonObject` keys sorted, but no property here depends on member order,
  only on the key/value mapping, which insertion order preserves because
  every object built by this code has distinct keys.)
* `QString` is modelled by `String`.  Qt string splitting
  (`QString::split`, which keeps empty parts), trimming
  (`QString::trimmed`) and lower-casing are given explicit structurally
  recursive definitions over `List Char` so that all of them evaluate
  inside the kernel.
* The network layer (`QTcpServer` / `QTcpSocket`) is not modelled;
  `HandleRequest` is embedded as a pure function from the received request
  bytes to the single response written on the socket plus the controller
  commands invoked, which is exactly the observable behaviour of
  `HTTPServer::HandleRequest` on an open socket.
-/

/-- JSON values as built by the server (`QJsonObject`, `QJsonValue`).
Objects are member chains (`objCons key value rest`, ending in `objNil`)
in insertion order; a plain inductive rather than a `List`-nested one so
that equality stays derivably decidable. -/
inductive Json where
  | bool (b : Bool)
  | str (s : String)
  | num (n : Int)
  | objNil
  | objCons (key : String) (value : Json) (rest : Json)
deriving DecidableEq, Repr

/-- Build a JSON object from its members in insertion order. -/
def Json.mkObj : List (String × Json) → Json
  | [] => Json.objNil
  | (k, v) :: rest => Json.objCons k v (Json.mkObj rest)

/-- Member lookup in a JSON object (`QJsonObject::value`); first match.
Objects built by this server have distinct keys, so the choice of
occurrence is immaterial. -/
def Json.getField : Json → String → Option Json
  | Json.objCons k v rest, key => if k = key then some v else Json.getField rest key
  | _, _ => none

/-- The recorder controller contract consumed by the server (`PageRecord`):
the five queries of §6.1.  `GetCurrentFileSize` is an unsigned 64-bit byte
count, `GetTotalTime` the elapsed milliseconds. -/
structure PageRecord where
  IsRecording : Bool
  IsPaused : Bool
  GetCurrentFileName : String
  GetCurrentFileSize : Nat
  GetTotalTime : Int
deriving DecidableEq, Repr

/-- Commands the server can invoke on the controller (`PageRecord` slots). -/
inductive Command where
  | OnRecordStart
  | OnRecordStartPause
  | OnRecordPause
  | OnRecordSave (confirm : Bool)
  | OnRecordCancel (confirm : Bool)
deriving DecidableEq, Repr

/-- Embedding of `HTTPServer::CreateSuccessResponse`. -/
def CreateSuccessResponse (data : Json) : Json :=
  Json.mkObj [("success", Json.bool true), ("data", data)]

/-- Embedding of `HTTPServer::CreateErrorResponse`. -/
def CreateErrorResponse (message : String) : Json :=
  Json.mkObj [("success", Json.bool false), ("error", Json.str message)]

/-- Embedding of `HTTPServer::HandleAPIStatus`.  Pure queries only: no command is
invoked.  The `m_page_record` null check is kept (`Option`); construction
guarantees `some`. -/
def HandleAPIStatus (pr : Option PageRecord) : Json :=
  match pr with
  | none => CreateSuccessResponse (Json.mkObj [])
  | some p =>
      CreateSuccessResponse (Json.mkObj
        [ ("is_recording", Json.bool p.IsRecording)
        , ("is_paused", Json.bool p.IsPaused)
        , ("file_name", Json.str p.GetCurrentFileName)
        , ("file_size", Json.str (toString p.GetCurrentFileSize))
        , ("total_time", Json.num p.GetTotalTime) ])

/-- Embedding of `HTTPServer::HandleAPIStartRecording`. -/
def HandleAPIStartRecording (pr : Option PageRecord) : Json × List Command :=
  match pr with
  | none => (CreateErrorResponse "No access to recording page", [])
  | some p =>
      if p.IsPaused then
        (CreateSuccessResponse (Json.mkObj [("action", Json.str "resumed")]), [Command.OnRecordStartPause])
      else if !p.IsRecording then
        (CreateSuccessResponse (Json.mkObj [("action", Json.str "started")]), [Command.OnRecordStart])
      else
        (CreateErrorResponse "Already recording", [])

/-- Embedding of `HTTPServer::HandleAPIPauseRecording`. -/
def HandleAPIPauseRecording (pr : Option PageRecord) : Json × List Command :=
  match pr with
  | none => (CreateErrorResponse "No access to recording page", [])
  | some p =>
      if p.IsRecording && !p.IsPaused then
        (CreateSuccessResponse (Json.mkObj []), [Command.OnRecordPause])
      else
        (CreateErrorResponse "Not recording or already paused", [])

/-- Embedding of `HTTPServer::HandleAPICancelRecording`.  `false` = no confirmation
dialog. -/
def HandleAPICancelRecording (pr : Option PageRecord) : Json × List Command :=
  match pr with
  | none => (CreateErrorResponse "No access to recording page", [])
  | some p =>
      if p.IsRecording then
        (CreateSuccessResponse (Json.mkObj []), [Command.OnRecordCancel false])
      else
        (CreateErrorResponse "Not recording", [])

/-- Embedding of `HTTPServer::HandleAPISaveRecording`.  `false` = no confirmation
dialog. -/
def HandleAPISaveRecording (pr : Option PageRecord) : Json × List Command :=
  match pr with
  | none => (CreateErrorResponse "No access to recording page", [])
  | some p =>
      if p.IsRecording then
        (CreateSuccessResponse (Json.mkObj []), [Command.OnRecordSave false])
      else
        (CreateErrorResponse "Not recording", [])

/-- Embedding of `QChar::isSpace` on the ASCII range (space and the control characters
`\t \n \v \f \r`), the characters `QString::trimmed` removes. -/
def qIsSpace (c : Char) : Bool :=
  c = ' ' || c = '\t' || c = '\n' || c = Char.ofNat 11 || c = Char.ofNat 12 || c = '\r'

/-- Embedding of `QString::trimmed`: strip leading and trailing whitespace. -/
def qtrimmed (s : String) : String :=
  String.mk (((s.toList.dropWhile qIsSpace).reverse.dropWhile qIsSpace).reverse)

/-- Embedding of `QString::toLower` (ASCII range, which covers every key this server
handles). -/
def qtoLower (s : String) : String :=
  String.mk (s.toList.map Char.toLower)

/-- Embedding of `QString::startsWith`. -/
def qstartsWith (p s : String) : Bool :=
  p.toList.isPrefixOf s.toList

/-- Embedding of `QString::mid(n)`: drop the first `n` characters. -/
def qmid (n : Nat) (s : String) : String :=
  String.mk (s.toList.drop n)

/-- Embedding of `QString::split("\r\n")` (default `KeepEmptyParts`): split on
non-overlapping occurrences of CRLF, keeping empty parts. -/
def splitCRLF : List Char → List (List Char)
  | '\r' :: '\n' :: rest => [] :: splitCRLF rest
  | c :: rest =>
      match splitCRLF rest with
      | [] => [[c]]
      | h :: t => (c :: h) :: t
  | [] => [[]]

/-- Embedding of `QString::split(" ")` and kin: split on a single character, keeping
empty parts. -/
def splitOnChar (sep : Char) : List Char → List (List Char)
  | [] => [[]]
  | c :: rest =>
      if c = sep then [] :: splitOnChar sep rest
      else
        match splitOnChar sep rest with
        | [] => [[c]]
        | h :: t => (c :: h) :: t

/-- Embedding of `request.indexOf("\r\n\r\n")` followed by `request.mid(headerEnd + 4)`:
everything after the first CRLFCRLF, `none` when there is no terminator. -/
def afterTerminator : List Char → Option (List Char)
  | '\r' :: '\n' :: '\r' :: '\n' :: rest => some rest
  | _ :: rest => afterTerminator rest
  | [] => none

/-- Embedding of `QString(request).split("\r\n")` on the whole buffer. -/
def splitLines (s : String) : List String :=
  (splitCRLF s.toList).map String.mk

/-- Embedding of `lines[0].split(" ")`: the request-line tokens. -/
def splitSpaces (s : String) : List String :=
  (splitOnChar ' ' s.toList).map String.mk

/-- One iteration of the header-parsing loop of `HTTPServer::HandleRequest`
(lines 209–214): find the first `:`; if its position is positive, insert
`left(colonPos).trimmed().toLower() ↦ mid(colonPos+1).trimmed()`.
`QMap::operator[]` assignment overwrites, so the map is modelled as an
association list built by prepending, read by first-match `List.lookup`. -/
def parseHeaderLine (headers : List (String × String)) (line : String) :
    List (String × String) :=
  match line.toList.findIdx? (fun c => c = ':') with
  | some colonPos =>
      if 0 < colonPos then
        (qtoLower (qtrimmed (String.mk (line.toList.take colonPos))),
          qtrimmed (String.mk (line.toList.drop (colonPos + 1)))) :: headers
      else headers
  | none => headers

/-- The header-parsing loop (lines after the request line, stopping at the
first empty line). -/
def parseHeaders : List String → List (String × String) → List (String × String)
  | [], headers => headers
  | line :: rest, headers =>
      if line = "" then headers
      else parseHeaders rest (parseHeaderLine headers line)

/-- The body of a response write: either raw bytes (`SendResponse` callers)
or a JSON document (`SendJsonResponse` callers; its `QJsonDocument::toJson`
serialisation is left abstract since no property depends on the exact
bytes). -/
inductive Content where
  | raw (s : String)
  | json (j : Json)
deriving DecidableEq, Repr

/-- One response as handed to the response writer: status code,
content type and body. -/
structure HttpWrite where
  status : Nat
  contentType : String
  body : Content
deriving DecidableEq, Repr

/-- Embedding of `SendResponse(socket, status, "text/plain", content)` at the dispatch
level. -/
def plainWrite (status : Nat) (content : String) : HttpWrite :=
  { status := status, contentType := "text/plain", body := Content.raw content }

/-- Embedding of `SendJsonResponse(socket, status, json)` at the dispatch level: always
`application/json`. -/
def jsonWrite (status : Nat) (j : Json) : HttpWrite :=
  { status := status, contentType := "application/json", body := Content.json j }

/-- The static index page served for `""`, `index`, `index.html`. -/
def indexContent : String :=
  "SimpleScreenRecorder API Server\n\n" ++
  "Available endpoints:\n" ++
  "- /start - Start recording\n" ++
  "- /pause - Pause recording\n" ++
  "- /save - Save recording\n" ++
  "- /cancel - Cancel recording\n" ++
  "- /status - Get status information\n"

/-- Embedding of `HTTPServer::HandleAPI`: legacy `api/` re-dispatch.  The C++ signature
also receives the request body parsed as a `QJsonObject`; that argument is
never read by `HandleAPI` or any handler, so it is carried here as the raw
body string and ignored just as the source ignores the parsed object. -/
def HandleAPI (pr : Option PageRecord) (path : String) (_jsonBody : String) :
    HttpWrite × List Command :=
  let rc : Json × List Command :=
    if path = "status" then (HandleAPIStatus pr, [])
    else if path = "record/start" then HandleAPIStartRecording pr
    else if path = "record/pause" then HandleAPIPauseRecording pr
    else if path = "record/cancel" then HandleAPICancelRecording pr
    else if path = "record/save" then HandleAPISaveRecording pr
    else (CreateErrorResponse "Unknown API endpoint", [])
  (jsonWrite 200 rc.1, rc.2)

/-- The endpoint dispatch of `HTTPServer::HandleRequest` (lines 231–286),
applied to the normalized path (leading `/` already stripped) and the
request body. -/
def dispatchPath (pr : Option PageRecord) (path : String) (body : String) :
    HttpWrite × List Command :=
  if path = "start" ∨ path = "record/start" then
    let rc := HandleAPIStartRecording pr
    (jsonWrite 200 rc.1, rc.2)
  else if path = "pause" ∨ path = "record/pause" then
    let rc := HandleAPIPauseRecording pr
    (jsonWrite 200 rc.1, rc.2)
  else if path = "save" ∨ path = "record/save" then
    let rc := HandleAPISaveRecording pr
    (jsonWrite 200 rc.1, rc.2)
  else if path = "cancel" ∨ path = "record/cancel" then
    let rc := HandleAPICancelRecording pr
    (jsonWrite 200 rc.1, rc.2)
  else if path = "status" ∨ path = "record/status" then
    (jsonWrite 200 (HandleAPIStatus pr), [])
  else if path = "api/status" ∨ path = "api/record/status" then
    (jsonWrite 200 (HandleAPIStatus pr), [])
  else if path = "" ∨ path = "index.html" ∨ path = "index" then
    (plainWrite 200 indexContent, [])
  else if qstartsWith "api/" path then
    HandleAPI pr (qmid 4 path) body
  else
    (plainWrite 404 "Not Found", [])

/-- Embedding of `HTTPServer::HandleRequest` on an open socket: parse the buffered
request, then dispatch.  The return value is the single response written
to the socket together with the controller commands invoked. -/
def HandleRequest (pr : Option PageRecord) (request : String) :
    HttpWrite × List Command :=
  if request = "" then (plainWrite 400 "Bad Request", [])
  else
    match splitLines request with
    | [] => (plainWrite 400 "Bad Request", [])
    | line0 :: restLines =>
        let requestLine := splitSpaces line0
        if requestLine.length < 3 then (plainWrite 400 "Bad Request", [])
        else
          let rawPath := requestLine.getD 1 ""
          let _headers := parseHeaders restLines []
          let body :=
            match afterTerminator request.toList with
            | some rest => String.mk rest
            | none => ""
          let path := if qstartsWith "/" rawPath then qmid 1 rawPath else rawPath
          dispatchPath pr path body

/-- The status phrase table of `HTTPServer::SendResponse` (the `switch` on
the status code). -/
def statusText (status : Nat) : String :=
  if status = 200 then "OK"
  else if status = 400 then "Bad Request"
  else if status = 404 then "Not Found"
  else if status = 500 then "Internal Server Error"
  else "Unknown"

/-- The byte length of a body (`QByteArray::size` of the UTF-8 bytes). -/
def byteLength (s : String) : Nat :=
  s.toList.foldl (fun n c => n + c.utf8Size) 0

/-- Embedding of `HTTPServer::SendResponse`: assemble the full response bytes — status
line, `Content-Type`, `Content-Length`, `Connection: close`,
`Access-Control-Allow-Origin: *`, a blank line, then the body. -/
def SendResponse (status : Nat) (contentType : String) (content : String) : String :=
  "HTTP/1.1 " ++ toString status ++ " " ++ statusText status ++ "\r\n" ++
  "Content-Type: " ++ contentType ++ "\r\n" ++
  "Content-Length: " ++ toString (byteLength content) ++ "\r\n" ++
  "Connection: close\r\n" ++
  "Access-Control-Allow-Origin: *\r\n" ++
  "\r\n" ++
  content

/-- The server's connection-level state: whether `m_server` is listening,
and the live-connection table `m_request_buffers` (socket identity ↦
accumulated buffer). -/
structure ServerState where
  listening : Bool
  connections : List (Nat × String)
deriving DecidableEq, Repr

/-- Embedding of `HTTPServer::Stop`: if the `QTcpServer` is listening, close it
(`QTcpServer::close` stops accepting; it does not disconnect established
client sockets) and log.  `m_request_buffers` is not touched. -/
def ServerState.Stop (s : ServerState) : ServerState :=
  if s.listening then { s with listening := false } else s

example :
    HandleAPIStartRecording (some ⟨false, false, "", 0, 0⟩) =
      (CreateSuccessResponse (Json.mkObj [("action", Json.str "started")]), [Command.OnRecordStart]) := by
  decide

example :
    HandleRequest (some ⟨false, false, "", 0, 0⟩) "POST /start HTTP/1.1\r\n\r\n" =
      (jsonWrite 200 (CreateSuccessResponse (Json.mkObj [("action", Json.str "started")])),
        [Command.OnRecordStart]) := by
  decide

example :
    HandleRequest (some ⟨false, false, "", 0, 0⟩) "GARBAGE\r\n\r\n" =
      (plainWrite 400 "Bad Request", []) := by
  decide

example :
    HandleRequest (some ⟨true, false, "out.mkv", 1048576, 12345⟩) "GET /status HTTP/1.1\r\n\r\n" =
      (jsonWrite 200 (CreateSuccessResponse (Json.mkObj
        [ ("is_recording", Json.bool true), ("is_paused", Json.bool false)
        , ("file_name", Json.str "out.mkv"), ("file_size", Json.str "1048576")
        , ("total_time", Json.num 12345) ])), []) := by
  decide

/-- Claim C1: for every controller state, a StartOrResume request (paths
`start` or `record/start`) returns a success envelope with action
`resumed` and invokes `OnRecordStartPause` (resume) iff `is_paused`;
returns a success envelope with action `started` and invokes
`OnRecordStart` iff neither paused nor recording; and otherwise returns
the error envelope `Already recording` and invokes no command. -/
theorem startOrResume_correct (p : PageRecord) (path body : String)
    (hpath : path = "start" ∨ path = "record/start") :
    (dispatchPath (some p) path body =
        (jsonWrite 200 (CreateSuccessResponse (Json.mkObj [("action", Json.str "resumed")])),
          [Command.OnRecordStartPause]) ↔ p.IsPaused = true) ∧
    (dispatchPath (some p) path body =
        (jsonWrite 200 (CreateSuccessResponse (Json.mkObj [("action", Json.str "started")])),
          [Command.OnRecordStart]) ↔ (p.IsPaused = false ∧ p.IsRecording = false)) ∧
    (dispatchPath (some p) path body =
        (jsonWrite 200 (CreateErrorResponse "Already recording"), []) ↔
      (p.IsPaused = false ∧ p.IsRecording = true)) := by
  obtain ⟨rec, pau, fn, fs, tt⟩ := p
  rcases hpath with rfl | rfl <;> cases rec <;> cases pau <;>
    simp [dispatchPath, HandleAPIStartRecording, jsonWrite, CreateSuccessResponse,
      CreateErrorResponse, Json.mkObj]

/-- Closed instance of `startOrResume_correct` at a paused controller. -/
theorem startOrResume_correct_witness :
    (dispatchPath (some ⟨true, true, "", 0, 0⟩) "start" "" =
        (jsonWrite 200 (CreateSuccessResponse (Json.mkObj [("action", Json.str "resumed")])),
          [Command.OnRecordStartPause]) ↔ (⟨true, true, "", 0, 0⟩ : PageRecord).IsPaused = true) ∧
    (dispatchPath (some ⟨true, true, "", 0, 0⟩) "start" "" =
        (jsonWrite 200 (CreateSuccessResponse (Json.mkObj [("action", Json.str "started")])),
          [Command.OnRecordStart]) ↔
      ((⟨true, true, "", 0, 0⟩ : PageRecord).IsPaused = false ∧
        (⟨true, true, "", 0, 0⟩ : PageRecord).IsRecording = false)) ∧
    (dispatchPath (some ⟨true, true, "", 0, 0⟩) "start" "" =
        (jsonWrite 200 (CreateErrorResponse "Already recording"), []) ↔
      ((⟨true, true, "", 0, 0⟩ : PageRecord).IsPaused = false ∧
        (⟨true, true, "", 0, 0⟩ : PageRecord).IsRecording = true)) :=
  startOrResume_correct ⟨true, true, "", 0, 0⟩ "start" "" (Or.inl rfl)

/-- Claim C2: Pause invokes `OnRecordPause` iff recording and not paused,
else errors `Not recording or already paused`; Save invokes
`OnRecordSave false` iff recording, else errors `Not recording`; Cancel
invokes `OnRecordCancel false` iff recording, else errors `Not recording`;
all three always answer with HTTP status 200. -/
theorem pauseSaveCancel_correct (p : PageRecord) (path body : String) :
    ((path = "pause" ∨ path = "record/pause") →
      dispatchPath (some p) path body =
        if p.IsRecording && !p.IsPaused then
          (jsonWrite 200 (CreateSuccessResponse (Json.mkObj [])), [Command.OnRecordPause])
        else
          (jsonWrite 200 (CreateErrorResponse "Not recording or already paused"), [])) ∧
    ((path = "save" ∨ path = "record/save") →
      dispatchPath (some p) path body =
        if p.IsRecording then
          (jsonWrite 200 (CreateSuccessResponse (Json.mkObj [])), [Command.OnRecordSave false])
        else
          (jsonWrite 200 (CreateErrorResponse "Not recording"), [])) ∧
    ((path = "cancel" ∨ path = "record/cancel") →
      dispatchPath (some p) path body =
        if p.IsRecording then
          (jsonWrite 200 (CreateSuccessResponse (Json.mkObj [])), [Command.OnRecordCancel false])
        else
          (jsonWrite 200 (CreateErrorResponse "Not recording"), [])) := by
  obtain ⟨rec, pau, fn, fs, tt⟩ := p
  refine ⟨fun hpath => ?_, fun hpath => ?_, fun hpath => ?_⟩ <;>
    rcases hpath with rfl | rfl <;> cases rec <;> cases pau <;>
      simp [dispatchPath, HandleAPIPauseRecording, HandleAPISaveRecording,
        HandleAPICancelRecording]

/-- Closed instance of `pauseSaveCancel_correct` at an idle controller on
path `pause`. -/
theorem pauseSaveCancel_correct_witness :
    dispatchPath (some ⟨false, false, "", 0, 0⟩) "pause" "" =
      (if (⟨false, false, "", 0, 0⟩ : PageRecord).IsRecording &&
          !(⟨false, false, "", 0, 0⟩ : PageRecord).IsPaused then
        (jsonWrite 200 (CreateSuccessResponse (Json.mkObj [])), [Command.OnRecordPause])
      else
        (jsonWrite 200 (CreateErrorResponse "Not recording or already paused"), [])) :=
  (pauseSaveCancel_correct ⟨false, false, "", 0, 0⟩ "pause" "").1 (Or.inl rfl)

/-- Claim C3: for every controller state, the Status endpoint (paths
`status`, `record/status`, `api/status`, `api/record/status`) returns a
success envelope whose data carries exactly `is_recording`, `is_paused`,
`file_name`, `file_size` as a decimal string, and `total_time` as a
number, and invokes no controller command. -/
theorem status_correct (p : PageRecord) (path body : String)
    (hpath : path = "status" ∨ path = "record/status" ∨
      path = "api/status" ∨ path = "api/record/status") :
    dispatchPath (some p) path body =
      (jsonWrite 200 (CreateSuccessResponse (Json.mkObj
        [ ("is_recording", Json.bool p.IsRecording)
        , ("is_paused", Json.bool p.IsPaused)
        , ("file_name", Json.str p.GetCurrentFileName)
        , ("file_size", Json.str (toString p.GetCurrentFileSize))
        , ("total_time", Json.num p.GetTotalTime) ])), []) := by
  rcases hpath with rfl | rfl | rfl | rfl <;> rfl

/-- Closed instance of `status_correct` at a recording controller. -/
theorem status_correct_witness :
    dispatchPath (some ⟨true, false, "out.mkv", 1048576, 12345⟩) "status" "" =
      (jsonWrite 200 (CreateSuccessResponse (Json.mkObj
        [ ("is_recording", Json.bool (⟨true, false, "out.mkv", 1048576, 12345⟩ : PageRecord).IsRecording)
        , ("is_paused", Json.bool (⟨true, false, "out.mkv", 1048576, 12345⟩ : PageRecord).IsPaused)
        , ("file_name", Json.str (⟨true, false, "out.mkv", 1048576, 12345⟩ : PageRecord).GetCurrentFileName)
        , ("file_size", Json.str (toString (⟨true, false, "out.mkv", 1048576, 12345⟩ : PageRecord).GetCurrentFileSize))
        , ("total_time", Json.num (⟨true, false, "out.mkv", 1048576, 12345⟩ : PageRecord).GetTotalTime) ])), []) :=
  status_correct ⟨true, false, "out.mkv", 1048576, 12345⟩ "status" "" (Or.inl rfl)

/-- Claim C4 counterexample: with the server listening and one live
connection, `Stop` leaves the connection-table entry in place, so it is
not the case that no entry remains after `Stop` returns.
(`QTcpServer::close` only stops accepting; `Stop` never touches
`m_request_buffers` nor the client sockets.) -/
theorem stop_counterexample :
    (ServerState.Stop { listening := true, connections := [(0, "")] }).connections ≠ [] := by
  decide

/-- Claim C4 (amended): `Stop`, when the service is Listening, closes the
listening socket and leaves the live connections and their table entries
untouched; when the service is already Stopped, `Stop` is safe and leaves
the state unchanged. -/
theorem stop_correct (s : ServerState) :
    s.Stop.listening = false ∧
    s.Stop.connections = s.connections ∧
    (s.listening = false → s.Stop = s) := by
  obtain ⟨l, cs⟩ := s
  cases l <;> simp [ServerState.Stop]

/-- Closed instance of `stop_correct` on a stopped server. -/
theorem stop_correct_witness :
    (ServerState.Stop { listening := false, connections := [] }).listening = false ∧
    (ServerState.Stop { listening := false, connections := [] }).connections =
      ({ listening := false, connections := [] } : ServerState).connections ∧
    (({ listening := false, connections := [] } : ServerState).listening = false →
      ServerState.Stop { listening := false, connections := [] } =
        { listening := false, connections := [] }) :=
  stop_correct { listening := false, connections := [] }

/-- The closed set of normalized paths the request dispatcher matches
exactly (the non-`api/`-prefix routes). -/
def dispatchSet : List String :=
  [ "", "index", "index.html", "start", "record/start", "pause", "record/pause"
  , "save", "record/save", "cancel", "record/cancel", "status", "record/status"
  , "api/status", "api/record/status" ]

/-- Claim C5: every parsed request whose normalized path is neither in the
dispatch set nor starts with `api/` is answered with status 404 and body
exactly `Not Found`, and no controller command is invoked. -/
theorem notFound_correct (pr : Option PageRecord) (path body : String)
    (hset : path ∉ dispatchSet) (hapi : qstartsWith "api/" path = false) :
    dispatchPath pr path body = (plainWrite 404 "Not Found", []) := by
  simp only [dispatchSet, List.mem_cons, List.not_mem_nil, or_false, not_or] at hset
  obtain ⟨h1, h2, h3, h4, h5, h6, h7, h8, h9, h10, h11, h12, h13, h14, h15⟩ := hset
  simp [dispatchPath, h1, h2, h3, h4, h5, h6, h7, h8, h9, h10, h11, h12, h13, h14, h15, hapi]

/-- Closed instance of `notFound_correct` at path `favicon.ico`. -/
theorem notFound_correct_witness :
    dispatchPath (some ⟨false, false, "", 0, 0⟩) "favicon.ico" "" =
      (plainWrite 404 "Not Found", []) :=
  notFound_correct (some ⟨false, false, "", 0, 0⟩) "favicon.ico" "" (by decide) (by decide)

/-- Claim C6: every request buffer whose first CRLF-delimited line splits
on single spaces into fewer than three tokens is answered with exactly one
response of status 400 and body exactly `Bad Request`; no endpoint is
dispatched and no controller command is invoked. -/
theorem badRequest_correct (pr : Option PageRecord) (request : String)
    (h : (splitSpaces ((splitLines request).headD "")).length < 3) :
    HandleRequest pr request = (plainWrite 400 "Bad Request", []) := by
  unfold HandleRequest
  by_cases hreq : request = ""
  · simp [hreq]
  · rw [if_neg hreq]
    cases hsl : splitLines request with
    | nil => rfl
    | cons line0 restLines =>
        rw [hsl] at h
        simp only [List.headD_cons] at h
        simp [h]

/-- Closed instance of `badRequest_correct` on the bytes
`GARBAGE\r\n\r\n`. -/
theorem badRequest_correct_witness :
    HandleRequest (some ⟨false, false, "", 0, 0⟩) "GARBAGE\r\n\r\n" =
      (plainWrite 400 "Bad Request", []) :=
  badRequest_correct (some ⟨false, false, "", 0, 0⟩) "GARBAGE\r\n\r\n" (by decide)

/-- The exact suffix set `HandleAPI` re-dispatches. -/
def apiRedispatchSet : List String :=
  ["status", "record/start", "record/pause", "record/cancel", "record/save"]

/-- Claim C7: a normalized path starting with `api/` that did not already
match a dispatch-table entry is re-dispatched by stripping the `api/`
prefix and running `HandleAPI` on the suffix, which checks exactly the set
`apiRedispatchSet`; any suffix outside that set yields HTTP 200 with
`application/json` and the error envelope `Unknown API endpoint`, with no
controller command invoked. -/
theorem legacyApi_correct (pr : Option PageRecord) (path body : String)
    (hapi : qstartsWith "api/" path = true)
    (h1 : path ≠ "api/status") (h2 : path ≠ "api/record/status") :
    dispatchPath pr path body = HandleAPI pr (qmid 4 path) body ∧
    (qmid 4 path ∉ apiRedispatchSet →
      HandleAPI pr (qmid 4 path) body =
        (jsonWrite 200 (CreateErrorResponse "Unknown API endpoint"), [])) := by
  have hne : ∀ c : String, qstartsWith "api/" c = false → path ≠ c := by
    intro c hc h
    rw [h, hc] at hapi
    exact Bool.false_ne_true hapi
  constructor
  · rw [dispatchPath]
    rw [if_neg (not_or.mpr ⟨hne "start" (by decide), hne "record/start" (by decide)⟩)]
    rw [if_neg (not_or.mpr ⟨hne "pause" (by decide), hne "record/pause" (by decide)⟩)]
    rw [if_neg (not_or.mpr ⟨hne "save" (by decide), hne "record/save" (by decide)⟩)]
    rw [if_neg (not_or.mpr ⟨hne "cancel" (by decide), hne "record/cancel" (by decide)⟩)]
    rw [if_neg (not_or.mpr ⟨hne "status" (by decide), hne "record/status" (by decide)⟩)]
    rw [if_neg (not_or.mpr ⟨h1, h2⟩)]
    rw [if_neg (not_or.mpr ⟨hne "" (by decide),
          not_or.mpr ⟨hne "index.html" (by decide), hne "index" (by decide)⟩⟩)]
    rw [if_pos hapi]
  · intro hset
    simp only [apiRedispatchSet, List.mem_cons, List.not_mem_nil, or_false, not_or] at hset
    obtain ⟨g1, g2, g3, g4, g5⟩ := hset
    simp [HandleAPI, g1, g2, g3, g4, g5]

/-- Closed instance of `legacyApi_correct` at path `api/foo`. -/
theorem legacyApi_correct_witness :
    dispatchPath (some ⟨false, false, "", 0, 0⟩) "api/foo" "" =
      HandleAPI (some ⟨false, false, "", 0, 0⟩) (qmid 4 "api/foo") "" ∧
    (qmid 4 "api/foo" ∉ apiRedispatchSet →
      HandleAPI (some ⟨false, false, "", 0, 0⟩) (qmid 4 "api/foo") "" =
        (jsonWrite 200 (CreateErrorResponse "Unknown API endpoint"), [])) :=
  legacyApi_correct (some ⟨false, false, "", 0, 0⟩) "api/foo" ""
    (by decide) (by decide) (by decide)

/-- Claim C8: every assembled response contains `Connection: close` and
`Access-Control-Allow-Origin: *`, carries a `Content-Length` equal to the
byte length of the body, places the body after one empty line following
the headers, opens with the status line whose phrase is `OK`/`Bad
Request`/`Not Found`/`Internal Server Error` for 200/400/404/500 and
`Unknown` for every other code. -/
theorem sendResponse_correct (status : Nat) (ct body : String) :
    (∃ a b, SendResponse status ct body = a ++ "Connection: close\r\n" ++ b) ∧
    (∃ a b, SendResponse status ct body = a ++ "Access-Control-Allow-Origin: *\r\n" ++ b) ∧
    (∃ a b, SendResponse status ct body =
      a ++ ("Content-Length: " ++ toString (byteLength body) ++ "\r\n") ++ b) ∧
    (∃ headerPart, SendResponse status ct body = headerPart ++ "\r\n" ++ body) ∧
    (∃ rest, SendResponse status ct body =
      "HTTP/1.1 " ++ toString status ++ " " ++ statusText status ++ "\r\n" ++ rest) ∧
    statusText 200 = "OK" ∧ statusText 400 = "Bad Request" ∧
    statusText 404 = "Not Found" ∧ statusText 500 = "Internal Server Error" ∧
    (status ≠ 200 → status ≠ 400 → status ≠ 404 → status ≠ 500 →
      statusText status = "Unknown") := by
  refine ⟨⟨"HTTP/1.1 " ++ toString status ++ " " ++ statusText status ++ "\r\n" ++
      "Content-Type: " ++ ct ++ "\r\n" ++
      "Content-Length: " ++ toString (byteLength body) ++ "\r\n",
      "Access-Control-Allow-Origin: *\r\n" ++ "\r\n" ++ body,
      by simp only [SendResponse, String.append_assoc]⟩,
    ⟨"HTTP/1.1 " ++ toString status ++ " " ++ statusText status ++ "\r\n" ++
      "Content-Type: " ++ ct ++ "\r\n" ++
      "Content-Length: " ++ toString (byteLength body) ++ "\r\n" ++
      "Connection: close\r\n",
      "\r\n" ++ body,
      by simp only [SendResponse, String.append_assoc]⟩,
    ⟨"HTTP/1.1 " ++ toString status ++ " " ++ statusText status ++ "\r\n" ++
      "Content-Type: " ++ ct ++ "\r\n",
      "Connection: close\r\n" ++ "Access-Control-Allow-Origin: *\r\n" ++ "\r\n" ++ body,
      by simp only [SendResponse, String.append_assoc]⟩,
    ⟨"HTTP/1.1 " ++ toString status ++ " " ++ statusText status ++ "\r\n" ++
      "Content-Type: " ++ ct ++ "\r\n" ++
      "Content-Length: " ++ toString (byteLength body) ++ "\r\n" ++
      "Connection: close\r\n" ++ "Access-Control-Allow-Origin: *\r\n",
      by simp only [SendResponse, String.append_assoc]⟩,
    ⟨"Content-Type: " ++ ct ++ "\r\n" ++
      "Content-Length: " ++ toString (byteLength body) ++ "\r\n" ++
      "Connection: close\r\n" ++ "Access-Control-Allow-Origin: *\r\n" ++ "\r\n" ++ body,
      by simp only [SendResponse, String.append_assoc]⟩,
    rfl, rfl, rfl, rfl, ?_⟩
  intro h200 h400 h404 h500
  simp [statusText, h200, h400, h404, h500]

/-- Closed instance of `sendResponse_correct` at status 302. -/
theorem sendResponse_correct_witness :
    (∃ a b, SendResponse 302 "text/plain" "x" = a ++ "Connection: close\r\n" ++ b) ∧
    (∃ a b, SendResponse 302 "text/plain" "x" = a ++ "Access-Control-Allow-Origin: *\r\n" ++ b) ∧
    (∃ a b, SendResponse 302 "text/plain" "x" =
      a ++ ("Content-Length: " ++ toString (byteLength "x") ++ "\r\n") ++ b) ∧
    (∃ headerPart, SendResponse 302 "text/plain" "x" = headerPart ++ "\r\n" ++ "x") ∧
    (∃ rest, SendResponse 302 "text/plain" "x" =
      "HTTP/1.1 " ++ toString 302 ++ " " ++ statusText 302 ++ "\r\n" ++ rest) ∧
    statusText 200 = "OK" ∧ statusText 400 = "Bad Request" ∧
    statusText 404 = "Not Found" ∧ statusText 500 = "Internal Server Error" ∧
    ((302 : Nat) ≠ 200 → (302 : Nat) ≠ 400 → (302 : Nat) ≠ 404 → (302 : Nat) ≠ 500 →
      statusText 302 = "Unknown") :=
  sendResponse_correct 302 "text/plain" "x"

/-- The key/value pair a single header line contributes, if any: `none`
when the line has no `:` or its first `:` is at position 0. -/
def headerEntry (line : String) : Option (String × String) :=
  match line.toList.findIdx? (fun c => c = ':') with
  | some colonPos =>
      if 0 < colonPos then
        some (qtoLower (qtrimmed (String.mk (line.toList.take colonPos))),
          qtrimmed (String.mk (line.toList.drop (colonPos + 1))))
      else none
  | none => none

theorem parseHeaderLine_eq_entry (hs : List (String × String)) (line : String) :
    parseHeaderLine hs line =
      match headerEntry line with
      | some kv => kv :: hs
      | none => hs := by
  unfold parseHeaderLine headerEntry
  cases line.toList.findIdx? (fun c => c = ':') with
  | none => rfl
  | some n =>
      by_cases hn : 0 < n <;> simp [hn]

/-- Closed form of the header loop: the entries of the lines before the
first empty line, most recent first, on top of the accumulator. -/
theorem parseHeaders_closed (lines : List String) (acc : List (String × String)) :
    parseHeaders lines acc =
      ((lines.takeWhile (fun l => l ≠ "")).filterMap headerEntry).reverse ++ acc := by
  induction lines generalizing acc with
  | nil => rfl
  | cons line rest ih =>
      by_cases hline : line = ""
      · subst hline
        simp [parseHeaders, List.takeWhile]
      · rw [parseHeaders, if_neg hline, ih, parseHeaderLine_eq_entry]
        have htake : (line :: rest).takeWhile (fun l => l ≠ "") =
            line :: rest.takeWhile (fun l => l ≠ "") := by
          simp [List.takeWhile, hline]
        rw [htake, List.filterMap_cons]
        cases headerEntry line with
        | none => rfl
        | some kv => simp

theorem lookup_eq_of_consistent (k v : String) (E : List (String × String))
    (hmem : (k, v) ∈ E) (hall : ∀ v2, (k, v2) ∈ E → v2 = v) :
    List.lookup k E = some v := by
  induction E with
  | nil => cases hmem
  | cons kv rest ih =>
      obtain ⟨k1, v1⟩ := kv
      by_cases hk : k = k1
      · subst hk
        have hv1 : v1 = v := hall v1 (List.mem_cons_self _ _)
        simp [List.lookup, hv1]
      · rw [List.lookup]
        have hbeq : (k == k1) = false := beq_eq_false_iff_ne.mpr hk
        rw [hbeq]
        refine ih ?_ ?_
        · rcases List.mem_cons.mp hmem with h | h
          · exact absurd (congrArg Prod.fst h) hk
          · exact h
        · exact fun v2 hv2 => hall v2 (List.mem_cons_of_mem _ hv2)

theorem takeWhile_idem {α : Type} (p : α → Bool) (l : List α) :
    (l.takeWhile p).takeWhile p = l.takeWhile p := by
  induction l with
  | nil => rfl
  | cons a rest ih =>
      by_cases ha : p a
      · simp [List.takeWhile, ha, ih]
      · simp [List.takeWhile, ha]

/-- Claim C9 counterexample: with the header lines `a: 1` and `a: 2` (both
before any empty line, both of the form `K: V` with folded key `a`), the
map lookup at `a` does not yield the trimmed value `1` of the first line:
`QMap::operator[]` assignment overwrites, so the later line wins. -/
theorem headerMap_counterexample :
    "a: 1" ∈ (["a: 1", "a: 2"].takeWhile (fun s => s ≠ "")) ∧
    headerEntry "a: 1" = some ("a", "1") ∧
    List.lookup "a" (parseHeaders ["a: 1", "a: 2"] []) ≠ some "1" := by
  decide

/-- Claim C9 (amended): for every header line `K: V` before the first
empty line, looking the map up at `lower(trim(K))` yields `trim(V)`
provided no other header line in that range maps the same folded key to a
different value (with duplicate keys, the last assignment wins); lines
with no `:` produce no entry; parsing stops at the first empty line. -/
theorem headerMap_lookup_correct :
    (∀ (lines : List String) (l k v : String),
      l ∈ lines.takeWhile (fun s => s ≠ "") →
      headerEntry l = some (k, v) →
      (∀ l2 ∈ lines.takeWhile (fun s => s ≠ ""),
        ∀ v2, headerEntry l2 = some (k, v2) → v2 = v) →
      List.lookup k (parseHeaders lines []) = some v) ∧
    (∀ (hs : List (String × String)) (l : String),
      l.toList.findIdx? (fun c => c = ':') = none → parseHeaderLine hs l = hs) ∧
    (∀ (lines : List String) (acc : List (String × String)),
      parseHeaders lines acc = parseHeaders (lines.takeWhile (fun s => s ≠ "")) acc) := by
  refine ⟨?_, ?_, ?_⟩
  · intro lines l k v hmem hentry huniq
    rw [parseHeaders_closed, List.append_nil]
    refine lookup_eq_of_consistent k v _ ?_ ?_
    · rw [List.mem_reverse]
      exact List.mem_filterMap.mpr ⟨l, hmem, hentry⟩
    · intro v2 hv2
      rw [List.mem_reverse] at hv2
      obtain ⟨l2, hl2, he2⟩ := List.mem_filterMap.mp hv2
      exact huniq l2 hl2 v2 he2
  · intro hs l h
    unfold parseHeaderLine
    rw [h]
  · intro lines acc
    rw [parseHeaders_closed, parseHeaders_closed, takeWhile_idem]

/-- Closed instance of `headerMap_lookup_correct`: a singleton header
section, a line with no colon, and a section cut off by an empty line. -/
theorem headerMap_lookup_correct_witness :
    List.lookup "a" (parseHeaders ["a: 1"] []) = some "1" ∧
    parseHeaderLine [] "noColon" = [] ∧
    parseHeaders ["x: 1", "", "y: 2"] [] =
      parseHeaders ((["x: 1", "", "y: 2"]).takeWhile (fun s => s ≠ "")) [] := by
  refine ⟨headerMap_lookup_correct.1 ["a: 1"] "a: 1" "a" "1" (by decide) (by decide) ?_,
    headerMap_lookup_correct.2.1 [] "noColon" (by decide),
    headerMap_lookup_correct.2.2 ["x: 1", "", "y: 2"] []⟩
  intro l2 hl2 v2 hv2
  rw [show ((["a: 1"]).takeWhile (fun s => s ≠ "")) = ["a: 1"] from by decide] at hl2
  have hl2e : l2 = "a: 1" := by simpa using hl2
  subst hl2e
  rw [show headerEntry "a: 1" = some ("a", "1") from by decide] at hv2
  simpa using hv2.symm

/-- Claim C10: a header line whose first `:` is at position 0 (such as
`:value`) contributes no entry to the header map, and an entry is only
ever contributed by a line whose first `:` is at position 1 or later. -/
theorem colonAtZero_no_entry (hs : List (String × String)) (l : String) :
    (l.toList.findIdx? (fun c => c = ':') = some 0 → parseHeaderLine hs l = hs) ∧
    (∀ k v, parseHeaderLine hs l = (k, v) :: hs →
      ∃ n, l.toList.findIdx? (fun c => c = ':') = some n ∧ 1 ≤ n) := by
  constructor
  · intro h
    unfold parseHeaderLine
    rw [h]
    simp
  · intro k v h
    unfold parseHeaderLine at h
    split at h
    next n hfind =>
      split at h
      next hn => exact ⟨n, hfind, hn⟩
      next => exact absurd h.symm (List.cons_ne_self _ _)
    next => exact absurd h.symm (List.cons_ne_self _ _)

/-- Closed instance of `colonAtZero_no_entry` on the line `:value`. -/
theorem colonAtZero_no_entry_witness :
    parseHeaderLine [] ":value" = [] :=
  (colonAtZero_no_entry [] ":value").1 (by decide)
